import Mathlib

set_option maxHeartbeats 1000000
set_option maxRecDepth 4000

/- Shallow embedding of the PR-review agent (src/agent.ts).
   JavaScript runtime values produced by the xml2js XML parser and by the
   GitHub webhook payload are modelled by `JsVal`; a JS `undefined` is
   `JsVal.undef`.  Exceptions are modelled with `Except JsErr`.
   Strings are compared by characters; the inputs of interest are ASCII, so
   JS UTF-16 indexing and Lean character indexing agree. -/

inductive JsErr where
  | typeError
  | xmlError (msg : String)
  | http (status : Int)
deriving Repr, DecidableEq

inductive JsVal where
  | undef
  | str (s : String)
  | num (n : Int)
  | arr (xs : List JsVal)
  | obj (fields : List (String × JsVal))
deriving Repr

/- Property access `v.k`.  On an object it is an association-list lookup;
   on a string, number or array a named (non-index) property that we never
   define is `undefined`; JS would throw on `undefined.k`, which is modelled
   separately by `jsGetE`. -/
def jsGet : JsVal → String → JsVal
  | JsVal.obj fields, k =>
    match fields.lookup k with
    | some v => v
    | none => JsVal.undef
  | _, _ => JsVal.undef

/- Property access that throws a TypeError when the receiver is `undefined`,
   as JS does. -/
def jsGetE (v : JsVal) (k : String) : Except JsErr JsVal :=
  match v with
  | JsVal.undef => Except.error JsErr.typeError
  | _ => Except.ok (jsGet v k)

/- Index access `v[i]`.  On an array it is the element or `undefined`;
   on a string it is the one-character string, as in JS. -/
def jsIndex : JsVal → Nat → JsVal
  | JsVal.arr xs, i => xs.getD i JsVal.undef
  | JsVal.str s, i =>
    match s.data.drop i with
    | c :: _ => JsVal.str (String.mk [c])
    | [] => JsVal.undef
  | _, _ => JsVal.undef

/- JS truthiness: `undefined`, `""` and `0` are falsy; arrays and objects
   (even empty ones) are truthy. -/
def jsTruthy : JsVal → Bool
  | JsVal.undef => false
  | JsVal.str s => s != ""
  | JsVal.num n => n != 0
  | JsVal.arr _ => true
  | JsVal.obj _ => true

/- The `??` operator (our values never contain JS null, so only
   `undefined` selects the default). -/
def jsCoalesce (v d : JsVal) : JsVal :=
  match v with
  | JsVal.undef => d
  | _ => v

def Array.isArray : JsVal → Bool
  | JsVal.arr _ => true
  | _ => false

/- String.prototype.indexOf: position of the first occurrence of `n`,
   found by scanning the haystack left to right. -/
def strFind (n : List Char) : List Char → Nat → Option Nat
  | [], i => if n.isPrefixOf ([] : List Char) then some i else none
  | c :: t, i => if n.isPrefixOf (c :: t) then some i else strFind n t (i + 1)

def jsIndexOf (hay needle : String) : Int :=
  match strFind needle.data hay.data 0 with
  | some i => (i : Int)
  | none => -1

def hasSubstr (s sub : String) : Bool :=
  (strFind sub.data s.data 0).isSome

/- String.prototype.slice with JS clamping of the two positions. -/
def jsSlice (s : String) (a b : Int) : String :=
  let len : Int := (s.data.length : Int)
  let st : Int := if a < 0 then max (len + a) 0 else min a len
  let en : Int := if b < 0 then max (len + b) 0 else min b len
  String.mk ((s.data.drop st.toNat).take (en.toNat - st.toNat))

def isXmlWs (c : Char) : Bool :=
  c = ' ' || c = '\n' || c = '\t' || c = '\r'

/- JS String.prototype.trim (on the ASCII whitespace that occurs here). -/
def jsTrim (s : String) : String :=
  String.mk (((s.data.dropWhile isXmlWs).reverse.dropWhile isXmlWs).reverse)

/- JS String.prototype.split on a newline. -/
def splitOnNl : List Char → List (List Char)
  | [] => [[]]
  | c :: r =>
    match splitOnNl r with
    | [] => [[]]
    | g :: gs => if c = '\n' then [] :: g :: gs else (c :: g) :: gs

/- Template-literal conversion of a value to a string; inside an array
   join, `undefined` renders as the empty string, as in JS. -/
mutual
def jsToStr : JsVal → String
  | JsVal.undef => "undefined"
  | JsVal.str s => s
  | JsVal.num n => toString n
  | JsVal.arr xs => String.intercalate "," (jsArrParts xs)
  | JsVal.obj _ => "[object Object]"

def jsArrParts : List JsVal → List String
  | [] => []
  | JsVal.undef :: r => "" :: jsArrParts r
  | v :: r => jsToStr v :: jsArrParts r
end

/- The xml2js document model for the attribute-free, entity-free markup the
   agent asks the model to emit (the only markup the parser meets).
   sax-js in strict mode rejects unclosed or mismatched tags, which the
   fuel-bounded recursive parser below reproduces; the fuel is the input
   length plus one, which bounds the recursion depth because every
   recursive call follows the consumption of at least one character. -/
inductive XmlNode where
  | elem (name : String) (children : List XmlNode)
  | text (t : String)
deriving Repr

/- Parses element content up to the matching close tag `closeName`. -/
def parseContent : Nat → List Char → List Char → Except JsErr (List XmlNode × List Char)
  | 0, _, _ => Except.error (JsErr.xmlError "depth exhausted")
  | Nat.succ fuel, cs, closeName =>
    match cs with
    | [] => Except.error (JsErr.xmlError "unclosed tag")
    | '<' :: '/' :: rest =>
      let nm := rest.takeWhile (fun c => c != '<' && c != '>')
      let rest2 := rest.drop nm.length
      if nm = closeName then
        match rest2 with
        | '>' :: rest3 => Except.ok ([], rest3)
        | _ => Except.error (JsErr.xmlError "bad close tag")
      else Except.error (JsErr.xmlError "mismatched close tag")
    | '<' :: rest =>
      let nm := rest.takeWhile (fun c => c != '<' && c != '>' && c != '/')
      let rest2 := rest.drop nm.length
      if nm = [] then Except.error (JsErr.xmlError "bad tag name")
      else
        match rest2 with
        | '>' :: rest3 =>
          match parseContent fuel rest3 nm with
          | Except.error e => Except.error e
          | Except.ok (kids, rest4) =>
            match parseContent fuel rest4 closeName with
            | Except.error e => Except.error e
            | Except.ok (sibs, rest5) =>
              Except.ok (XmlNode.elem (String.mk nm) kids :: sibs, rest5)
        | '/' :: '>' :: rest3 =>
          match parseContent fuel rest3 closeName with
          | Except.error e => Except.error e
          | Except.ok (sibs, rest4) =>
            Except.ok (XmlNode.elem (String.mk nm) [] :: sibs, rest4)
        | _ => Except.error (JsErr.xmlError "bad tag")
    | _ =>
      let txt := cs.takeWhile (fun c => c != '<')
      let rest := cs.dropWhile (fun c => c != '<')
      match parseContent fuel rest closeName with
      | Except.error e => Except.error e
      | Except.ok (sibs, rest2) =>
        Except.ok (XmlNode.text (String.mk txt) :: sibs, rest2)

/- Parses a whole document: one root element, optionally surrounded by
   whitespace. -/
def parseRoot (s : String) : Except JsErr (String × List XmlNode) :=
  match s.data.dropWhile isXmlWs with
  | '<' :: rest =>
    let nm := rest.takeWhile (fun c => c != '<' && c != '>' && c != '/')
    let rest2 := rest.drop nm.length
    if nm = [] then Except.error (JsErr.xmlError "bad root tag")
    else
      match rest2 with
      | '>' :: rest3 =>
        match parseContent (s.data.length + 1) rest3 nm with
        | Except.error e => Except.error e
        | Except.ok (kids, rest4) =>
          if rest4.dropWhile isXmlWs = [] then Except.ok (String.mk nm, kids)
          else Except.error (JsErr.xmlError "text after root")
      | '/' :: '>' :: rest3 =>
        if rest3.dropWhile isXmlWs = [] then Except.ok (String.mk nm, [])
        else Except.error (JsErr.xmlError "text after root")
      | _ => Except.error (JsErr.xmlError "bad root")
  | _ => Except.error (JsErr.xmlError "no root element")

def textConcat : List XmlNode → List Char
  | [] => []
  | XmlNode.text t :: r => t.data ++ textConcat r
  | _ :: r => textConcat r

def dedupKeys (l : List String) : List String :=
  l.foldl (fun acc k => if acc.contains k then acc else acc ++ [k]) []

def groupPairs (pairs : List (String × JsVal)) : List (String × JsVal) :=
  (dedupKeys (pairs.map Prod.fst)).map
    (fun k => (k, JsVal.arr ((pairs.filter (fun p => p.1 = k)).map Prod.snd)))

/- xml2js default shaping: a text-only element becomes its text (an empty
   or whitespace-only element becomes ""), an element with child elements
   becomes an object whose keys map to arrays of child values in document
   order (explicitArray), and non-whitespace text next to child elements
   is kept under the "_" key. -/
def mkElemVal (txt : List Char) (pairs : List (String × JsVal)) : JsVal :=
  if pairs.isEmpty then
    (if txt.all isXmlWs then JsVal.str "" else JsVal.str (String.mk txt))
  else
    (if txt.all isXmlWs then JsVal.obj (groupPairs pairs)
     else JsVal.obj (("_", JsVal.str (String.mk txt)) :: groupPairs pairs))

mutual
def xmlToJs : XmlNode → JsVal
  | XmlNode.text t => JsVal.str t
  | XmlNode.elem _ kids => mkElemVal (textConcat kids) (childPairs kids)

def childPairs : List XmlNode → List (String × JsVal)
  | [] => []
  | x :: rest =>
    match x with
    | XmlNode.text _ => childPairs rest
    | XmlNode.elem n _ => (n, xmlToJs x) :: childPairs rest
end

/- xml2js parseStringPromise with its default options (explicitRoot wraps
   the root value under the root tag name). -/
def parseStringPromise (s : String) : Except JsErr JsVal :=
  match parseRoot s with
  | Except.error e => Except.error e
  | Except.ok (n, kids) => Except.ok (JsVal.obj [(n, xmlToJs (XmlNode.elem n kids))])

/- The CodeAnalysis record of the agent (src/agent.ts lines 25-32).  The parsed
   xml2js tree is untyped at runtime, so the extracted field values are
   JsVal (the TypeScript annotations are erased); the two list fields are
   genuine JS arrays in every branch of the source and so are Lean lists. -/
structure FileAnalysis where
  path : JsVal
  analysis : JsVal
deriving Repr

structure CodeAnalysis where
  summary : JsVal
  fileAnalyses : List FileAnalysis
  overallSuggestions : List JsVal
deriving Repr

def JsVal.isStr : JsVal → Bool
  | JsVal.str _ => true
  | _ => false

/- Fallback returned when the review markers cannot be located
   (src/agent.ts lines 107-111). -/
def markerFallback : CodeAnalysis :=
  { summary := JsVal.str "AI analysis could not parse the response from the model."
    fileAnalyses := []
    overallSuggestions := [] }

/- Fallback returned when a mandatory top-level field is missing
   (src/agent.ts lines 123-127). -/
def fieldsFallback : CodeAnalysis :=
  { summary := JsVal.str "AI analysis returned incomplete or invalid XML structure."
    fileAnalyses := []
    overallSuggestions := [] }

/- Fallback returned by the catch handler of parseReviewXml
   (src/agent.ts lines 144-148). -/
def catchFallback : CodeAnalysis :=
  { summary := JsVal.str "We were unable to fully parse the AI-provided code analysis."
    fileAnalyses := []
    overallSuggestions := [] }

/- The slice taken at src/agent.ts line 115: from the first "<review>" to
   the end of the first "</review>" occurrence, with xmlEnd computed as
   indexOf + 9 before any check. -/
def reviewSlice (xmlText : String) : String :=
  jsSlice xmlText (jsIndexOf xmlText "<review>") (jsIndexOf xmlText "</review>" + 9)

/- One entry of the fileAnalyses mapping at src/agent.ts lines 134-137:
   `path: file.path?.[0] ?? "Unknown file"` and
   `analysis: file.analysis?.[0] ?? ""`. -/
def extractFileEntry (f : JsVal) : FileAnalysis :=
  { path := jsCoalesce (jsIndex (jsGet f "path") 0) (JsVal.str "Unknown file")
    analysis := jsCoalesce (jsIndex (jsGet f "analysis") 0) (JsVal.str "") }

/- src/agent.ts lines 120-140: the mandatory-field guard (with JS
   short-circuit truthiness) followed by the field extraction from the
   parsed tree.  `parsed.review.fileAnalyses[0].file` and
   `parsed.review.overallSuggestions[0].suggestion` throw when the indexed
   element is undefined, hence the jsGetE calls. -/
def extractAnalysis (parsed : JsVal) : Except JsErr CodeAnalysis :=
  let review := jsGet parsed "review"
  let sv := jsGet review "summary"
  let fav := jsGet review "fileAnalyses"
  let osv := jsGet review "overallSuggestions"
  if !(jsTruthy review) || !(jsTruthy sv) || !(jsTruthy fav) || !(jsTruthy osv) then
    Except.ok fieldsFallback
  else
    match jsGetE (jsIndex fav 0) "file" with
    | Except.error e => Except.error e
    | Except.ok fileV =>
      match jsGetE (jsIndex osv 0) "suggestion" with
      | Except.error e => Except.error e
      | Except.ok suggV =>
        Except.ok
          { summary := jsCoalesce (jsIndex sv 0) (JsVal.str "")
            fileAnalyses :=
              (match fileV with
               | JsVal.arr fs => fs.map extractFileEntry
               | _ => [])
            overallSuggestions :=
              (match suggV with
               | JsVal.arr ss => ss.map (fun s => if jsTruthy s then s else JsVal.str "")
               | _ => []) }

/- The body of the try block of parseReviewXml (src/agent.ts lines 99-140),
   statement by statement.  The guard at line 105 compares
   xmlEnd = indexOf + 9 against -1, exactly as the source does. -/
def parseReviewXmlBody (xmlText : String) : Except JsErr CodeAnalysis :=
  let xmlStart : Int := jsIndexOf xmlText "<review>"
  let xmlEnd : Int := jsIndexOf xmlText "</review>" + 9
  if xmlStart = -1 ∨ xmlEnd = -1 then
    Except.ok markerFallback
  else
    match parseStringPromise (jsSlice xmlText xmlStart xmlEnd) with
    | Except.error e => Except.error e
    | Except.ok parsed => extractAnalysis parsed

/- parseReviewXml with its surrounding try/catch (src/agent.ts lines 98-150):
   every exception raised in the body is converted to catchFallback. -/
def parseReviewXml (xmlText : String) : CodeAnalysis :=
  match parseReviewXmlBody xmlText with
  | Except.ok r => r
  | Except.error _ => catchFallback

/- A file entry as returned by the host file listing (octokit
   pulls.listFiles); `patch` is optional in the host schema. -/
structure HostFile where
  filename : String
  patch : Option String
  status : String
  additions : Nat
  deletions : Nat
deriving Repr, DecidableEq

/- The FileChange record of the agent (src/agent.ts lines 15-22). -/
structure FileChange where
  filename : String
  patch : String
  status : String
  additions : Nat
  deletions : Nat
  content : Option String
deriving Repr, DecidableEq

/- Outcome of one octokit repos.getContent call for a path, already
   Base64-decoded: the content string when the response carries one,
   none when the response has no content field, or an error. -/
def ContentFetch : Type := String → Except JsErr (Option String)

/- getFileContent (src/agent.ts lines 74-92): a 404 from the host becomes
   an absent content; any other error is rethrown. -/
def getFileContent (gc : ContentFetch) (path : String) : Except JsErr (Option String) :=
  match gc path with
  | Except.ok v => Except.ok v
  | Except.error (JsErr.http s) =>
    if s = 404 then Except.ok none else Except.error (JsErr.http s)
  | Except.error e => Except.error e

/- One record of the Promise.all fan-out (src/agent.ts lines 289-308):
   content is fetched only for non-removed files, and any error from the
   fetch is caught and degrades to an absent content. -/
def mkChangeRecord (gc : ContentFetch) (f : HostFile) : FileChange :=
  { filename := f.filename
    patch := f.patch.getD ""
    status := f.status
    additions := f.additions
    deletions := f.deletions
    content :=
      if f.status ≠ "removed" then
        match getFileContent gc f.filename with
        | Except.ok v => v
        | Except.error _ => none
      else none }

/- The Change-Set Collector: Promise.all over the host file list keeps one
   result slot per input file, reassembled at the original indices. -/
def collectChangedFiles (gc : ContentFetch) (files : List HostFile) : List FileChange :=
  files.map (mkChangeRecord gc)

/- The prompt template of analyzeCode (src/agent.ts lines 158-194). -/
def buildPrompt (title : String) (changedFiles : List FileChange) (commitMessages : List String) : String :=
  "You are an expert code reviewer. Analyze these pull request changes and provide detailed feedback.\nWrite your analysis in clear, concise paragraphs. Do not use code blocks for regular text.\nFormat suggestions as single-line bullet points.\n\nContext:\nPR Title: " ++ title ++ "\nCommit Messages: \n"
    ++ String.intercalate "\n" (commitMessages.map (fun msg => "- " ++ msg))
    ++ "\n\nChanged Files:\n"
    ++ String.intercalate "\n---\n"
      (changedFiles.map (fun file =>
        "\nFile: " ++ file.filename ++ "\nStatus: " ++ file.status ++ "\nDiff:\n"
          ++ file.patch ++ "\n\nCurrent Content:\n"
          ++ (match file.content with
              | some c => if c = "" then "N/A" else c
              | none => "N/A")
          ++ "\n"))
    ++ "\n\nProvide your review in the following XML format:\n<review>\n  <summary>Write a clear, concise paragraph summarizing the changes</summary>\n  <fileAnalyses>\n    <file>\n      <path>file path</path>\n      <analysis>Write analysis as regular paragraphs, not code blocks</analysis>\n    </file>\n  </fileAnalyses>\n  <overallSuggestions>\n    <suggestion>Write each suggestion as a single line</suggestion>\n  </overallSuggestions>\n</review>;"

/- Fallback of the catch handler of analyzeCode (src/agent.ts lines 208-212). -/
def analyzeFallback : CodeAnalysis :=
  { summary := JsVal.str "We were unable to analyze the code due to an internal error."
    fileAnalyses := []
    overallSuggestions := [] }

/- analyzeCode (src/agent.ts lines 156-214): build the prompt, issue one
   model call, parse the response; any exception from the call is caught
   and converted to analyzeFallback. -/
def analyzeCode (modelCall : String → Except JsErr String) (title : String)
    (changedFiles : List FileChange) (commitMessages : List String) : CodeAnalysis :=
  match modelCall (buildPrompt title changedFiles commitMessages) with
  | Except.ok text => parseReviewXml text
  | Except.error _ => analyzeFallback

/- The markdown body built by updateCommentWithReview (src/agent.ts lines
   235-254).  `.trim()` and `.split()` throw a TypeError when the extracted
   field is not a string, hence the Except result. -/
def renderFileSection (f : FileAnalysis) : Except JsErr String :=
  match f.analysis with
  | JsVal.str s =>
    Except.ok ("## " ++ jsToStr f.path ++ "\n"
      ++ String.intercalate "\n"
        (((splitOnNl s.data).map (fun l => jsTrim (String.mk l))).filter
          (fun l => !l.isEmpty)))
  | _ => Except.error JsErr.typeError

def renderSuggestion (s : JsVal) : Except JsErr String :=
  match s with
  | JsVal.str t => Except.ok ("â€¢ " ++ jsTrim t)
  | _ => Except.error JsErr.typeError

def buildFinalReviewBody (a : CodeAnalysis) : Except JsErr String := do
  let summaryT ←
    (match a.summary with
     | JsVal.str s => Except.ok (jsTrim s)
     | _ => Except.error JsErr.typeError)
  let fileSecs ← a.fileAnalyses.mapM renderFileSection
  let suggs ← a.overallSuggestions.mapM renderSuggestion
  return ("# Pull Request Review\n\n" ++ summaryT ++ "\n\n"
    ++ String.intercalate "\n\n" fileSecs
    ++ "\n\n## Suggestions for Improvement\n"
    ++ String.intercalate "\n" suggs
    ++ "\n\n---\n*Generated by PR Review Bot*")

/- The placeholder text posted by postPlaceholderComment
   (src/agent.ts line 225). -/
def placeholderBody : String :=
  "PR Review Bot is analyzing your changes... Please wait."

/- The fields handlePullRequestOpened extracts from the event payload
   (src/agent.ts lines 271-275). -/
structure PRInfo where
  owner : JsVal
  repo : JsVal
  pullNumber : JsVal
  title : JsVal
  headRef : JsVal
deriving Repr

def extractPR (payload : JsVal) : Except JsErr PRInfo := do
  let repository ← jsGetE payload "repository"
  let rowner ← jsGetE repository "owner"
  let owner ← jsGetE rowner "login"
  let repo ← jsGetE repository "name"
  let pull ← jsGetE payload "pull_request"
  let pullNumber ← jsGetE pull "number"
  let title ← jsGetE pull "title"
  let head ← jsGetE pull "head"
  let headRef ← jsGetE head "sha"
  return { owner := owner, repo := repo, pullNumber := pullNumber,
           title := title, headRef := headRef }

/- Outcomes of the outbound host and model calls for one event; commit
   messages are modelled already projected (c.commit.message). -/
structure HostOracle where
  createComment : Except JsErr Nat
  listFiles : Except JsErr (List HostFile)
  getContent : ContentFetch
  listCommits : Except JsErr (List String)
  model : String → Except JsErr String
  updateComment : Except JsErr Unit

/- Observable outbound actions, in issue order. -/
inductive HostCall where
  | createComment (body : String)
  | listFiles
  | getContent (path : String)
  | listCommits
  | generateText (prompt : String)
  | updateComment (id : Nat) (body : String)
  | respond (status : Nat)
deriving Repr, DecidableEq

/- Trace of the per-file content fetches: one getContent call per
   non-removed file, in file-list order. -/
def contentCalls (files : List HostFile) : List HostCall :=
  (files.filter (fun f => f.status ≠ "removed")).map
    (fun f => HostCall.getContent f.filename)

/- The try block of handlePullRequestOpened (src/agent.ts lines 277-324):
   placeholder comment, file listing, content fan-out, commit listing,
   analysis, final comment update.  The returned list is the trace of
   outbound calls; the Except is the outcome of the block. -/
def tryBody (o : HostOracle) (info : PRInfo) : List HostCall × Except JsErr Unit :=
  match o.createComment with
  | Except.error e => ([HostCall.createComment placeholderBody], Except.error e)
  | Except.ok cid =>
    match o.listFiles with
    | Except.error e =>
      ([HostCall.createComment placeholderBody, HostCall.listFiles], Except.error e)
    | Except.ok files =>
      let changedFiles := collectChangedFiles o.getContent files
      match o.listCommits with
      | Except.error e =>
        ([HostCall.createComment placeholderBody, HostCall.listFiles]
          ++ contentCalls files ++ [HostCall.listCommits], Except.error e)
      | Except.ok commits =>
        let prompt := buildPrompt (jsToStr info.title) changedFiles commits
        let analysis := analyzeCode o.model (jsToStr info.title) changedFiles commits
        let pre := [HostCall.createComment placeholderBody, HostCall.listFiles]
          ++ contentCalls files ++ [HostCall.listCommits, HostCall.generateText prompt]
        match buildFinalReviewBody analysis with
        | Except.error e => (pre, Except.error e)
        | Except.ok body =>
          match o.updateComment with
          | Except.error e => (pre ++ [HostCall.updateComment cid body], Except.error e)
          | Except.ok _ => (pre ++ [HostCall.updateComment cid body], Except.ok ())

/- handlePullRequestOpened (src/agent.ts lines 269-328).  The payload field
   extraction happens before the try block; the catch swallows every
   exception of the block itself. -/
def handlePullRequestOpened (o : HostOracle) (payload : JsVal) : List HostCall × Except JsErr Unit :=
  match extractPR payload with
  | Except.error e => ([], Except.error e)
  | Except.ok info =>
    let r := tryBody o info
    (r.1, Except.ok ())

def respStatus : Except JsErr Unit → Nat
  | Except.ok _ => 200
  | Except.error _ => 500

/- The webhook endpoint (src/agent.ts lines 355-371): a qualifying
   pull_request/opened event awaits the whole handler before the 200 is
   written; an exception escaping the handler produces a 500. -/
def webhookPost (o : HostOracle) (eventType : String) (payload : JsVal) : List HostCall :=
  match jsGetE payload "action" with
  | Except.error _ => [HostCall.respond 500]
  | Except.ok action =>
    if eventType = "pull_request" &&
        (match action with | JsVal.str s => s = "opened" | _ => false) then
      let r := handlePullRequestOpened o payload
      r.1 ++ [HostCall.respond (respStatus r.2)]
    else [HostCall.respond 200]

def isCreate : HostCall → Bool
  | HostCall.createComment _ => true
  | _ => false

def isUpdate : HostCall → Bool
  | HostCall.updateComment _ _ => true
  | _ => false

def createCount (tr : List HostCall) : Nat :=
  tr.countP isCreate

def updateCount (tr : List HostCall) : Nat :=
  tr.countP isUpdate

def isRespond : HostCall → Bool
  | HostCall.respond _ => true
  | _ => false

/- Concrete fixtures used by the witnesses and counterexamples below. -/

def goodPayload : JsVal :=
  JsVal.obj [("action", JsVal.str "opened"),
    ("repository", JsVal.obj [("owner", JsVal.obj [("login", JsVal.str "octo")]),
      ("name", JsVal.str "repo")]),
    ("pull_request", JsVal.obj [("number", JsVal.num 1), ("title", JsVal.str "T"),
      ("head", JsVal.obj [("sha", JsVal.str "abc")])])]

def goodInfo : PRInfo :=
  { owner := JsVal.str "octo", repo := JsVal.str "repo", pullNumber := JsVal.num 1,
    title := JsVal.str "T", headRef := JsVal.str "abc" }

def oracleAllOk : HostOracle :=
  { createComment := Except.ok 7
    listFiles := Except.ok [⟨"a.ts", some "p", "modified", 1, 0⟩]
    getContent := fun _ => Except.ok (some "body")
    listCommits := Except.ok ["m1"]
    model := fun _ => Except.ok ""
    updateComment := Except.ok () }

def oracleFilesFail : HostOracle :=
  { oracleAllOk with listFiles := Except.error JsErr.typeError }

/- The xml2js tree of a review document whose per-file entries and
   suggestions have the requested shape; field order follows document
   order of the prompt schema. -/
def fileEntryVal (e : String × String) : JsVal :=
  JsVal.obj [("path", JsVal.arr [JsVal.str e.1]), ("analysis", JsVal.arr [JsVal.str e.2])]

def reviewTreeF (S : String) (fs : List JsVal) (ss : List JsVal) : JsVal :=
  JsVal.obj [("review", JsVal.obj
    [("summary", JsVal.arr [JsVal.str S]),
     ("fileAnalyses", JsVal.arr [JsVal.obj [("file", JsVal.arr fs)]]),
     ("overallSuggestions", JsVal.arr [JsVal.obj [("suggestion", JsVal.arr ss)]])])]

def reviewTree (S : String) (entries : List (String × String)) (suggs : List String) : JsVal :=
  reviewTreeF S (entries.map fileEntryVal) (suggs.map JsVal.str)

/- Helper lemmas. -/

lemma jsIndexOf_cases (hay needle : String) :
    jsIndexOf hay needle = -1 ∨ 0 ≤ jsIndexOf hay needle := by
  unfold jsIndexOf
  cases strFind needle.data hay.data 0 with
  | none => exact Or.inl rfl
  | some i => exact Or.inr (Int.natCast_nonneg i)

lemma marker_guard_false (s : String) (h1 : jsIndexOf s "<review>" ≠ -1) :
    ¬(jsIndexOf s "<review>" = -1 ∨ jsIndexOf s "</review>" + 9 = -1) := by
  rintro (h | h)
  · exact h1 h
  · rcases jsIndexOf_cases s "</review>" with hc | hc
    · rw [hc] at h
      norm_num at h
    · omega

/- When the opening marker is present, parseReviewXml parses the slice and
   extracts; the guard at line 105 cannot fire on the closing marker
   because xmlEnd = indexOf + 9 is never -1. -/
lemma parseReviewXml_eq_extract (s : String) (v : JsVal)
    (h1 : jsIndexOf s "<review>" ≠ -1)
    (hp : parseStringPromise (reviewSlice s) = Except.ok v) :
    parseReviewXml s
      = (match extractAnalysis v with
         | Except.ok r => r
         | Except.error _ => catchFallback) := by
  unfold parseReviewXml parseReviewXmlBody
  rw [if_neg (marker_guard_false s h1)]
  unfold reviewSlice at hp
  rw [hp]

lemma extractAnalysis_reviewTreeF (S : String) (fs ss : List JsVal) :
    extractAnalysis (reviewTreeF S fs ss)
      = Except.ok
          { summary := JsVal.str S
            fileAnalyses := fs.map extractFileEntry
            overallSuggestions := ss.map (fun s => if jsTruthy s then s else JsVal.str "") } := rfl

lemma extractFileEntry_fileEntryVal (e : String × String) :
    extractFileEntry (fileEntryVal e)
      = { path := JsVal.str e.1, analysis := JsVal.str e.2 } := rfl

lemma suggestion_map_id (t : String) :
    (if jsTruthy (JsVal.str t) then JsVal.str t else JsVal.str "") = JsVal.str t := by
  by_cases h : t = "" <;> simp [jsTruthy, h]

/-- C1: the claim states that parseReviewXml always returns a record whose
scalar fields are strings.  The extraction `parsed.review.summary[0] ?? ""`
performs no string coercion, so when the summary element contains nested
markup the summary field of the returned record is the parsed xml2js
object, not a string, contradicting the declared
`interface CodeAnalysis { summary: string }`.  This theorem evaluates the
code at the failing input. -/
theorem parseReviewXml_nested_summary_not_string :
    (parseReviewXml "<review><summary><b>S</b></summary><fileAnalyses><file><path>p</path><analysis>A</analysis></file></fileAnalyses><overallSuggestions><suggestion>X</suggestion></overallSuggestions></review>").summary
        = JsVal.obj [("b", JsVal.arr [JsVal.str "S"])] ∧
    JsVal.isStr (parseReviewXml "<review><summary><b>S</b></summary><fileAnalyses><file><path>p</path><analysis>A</analysis></file></fileAnalyses><overallSuggestions><suggestion>X</suggestion></overallSuggestions></review>").summary
        = false := by
  exact ⟨rfl, rfl⟩

/-- C2: the claim states that when the closing marker "</review>" is absent
parse returns the same fixed whole-record fallback as for a missing opening
marker, without attempting structured extraction.  On the input
"<review><summary>S</summary>" the closing marker is absent (indexOf is
-1), yet xmlEnd = -1 + 9 = 8 defeats the guard at line 105: the code
slices "<review>" out of the input, attempts to parse it, and the XML
error lands in the catch handler, producing the catch fallback — a
different record from the missing-marker fallback. -/
theorem parseReviewXml_missing_close_marker_catch_fallback :
    jsIndexOf "<review><summary>S</summary>" "</review>" = -1 ∧
    parseReviewXml "<review><summary>S</summary>" = catchFallback ∧
    catchFallback.summary
      = JsVal.str "We were unable to fully parse the AI-provided code analysis." ∧
    markerFallback.summary
      = JsVal.str "AI analysis could not parse the response from the model." := by
  exact ⟨rfl, rfl, rfl, rfl⟩

/-- C4: for every input whose review markers are both present and whose
slice parses, if a mandatory top-level field (summary, fileAnalyses,
overallSuggestions) is absent from the parsed tree then parseReviewXml
returns the fixed whole-record fallback of src/agent.ts lines 123-127
rather than a record built from the partial markup. -/
theorem parseReviewXml_missing_mandatory_field_fallback
    (s : String) (parsed : JsVal)
    (h1 : jsIndexOf s "<review>" ≠ -1)
    (_h2 : jsIndexOf s "</review>" ≠ -1)
    (hp : parseStringPromise (reviewSlice s) = Except.ok parsed)
    (hmiss : jsGet (jsGet parsed "review") "summary" = JsVal.undef
      ∨ jsGet (jsGet parsed "review") "fileAnalyses" = JsVal.undef
      ∨ jsGet (jsGet parsed "review") "overallSuggestions" = JsVal.undef) :
    parseReviewXml s = fieldsFallback := by
  rw [parseReviewXml_eq_extract s parsed h1 hp]
  unfold extractAnalysis
  rcases hmiss with h | h | h <;>
    simp only [h, jsTruthy, Bool.not_false, Bool.or_true, Bool.true_or,
      Bool.or_assoc, if_true]

def c4Input : String := "<review><summary>S</summary></review>"

def c4Parsed : JsVal :=
  JsVal.obj [("review", JsVal.obj [("summary", JsVal.arr [JsVal.str "S"])])]

/-- C4 witness: an input with both markers whose parsed tree lacks the
mandatory fileAnalyses field yields the whole-record fallback. -/
theorem parseReviewXml_missing_mandatory_field_fallback_witness :
    parseReviewXml c4Input = fieldsFallback := by
  exact parseReviewXml_missing_mandatory_field_fallback c4Input c4Parsed
    (by decide) (by decide) rfl (Or.inr (Or.inl rfl))

/-- C8: for every input whose slice parses to a well-formed review tree
with text-only scalar elements, parseReviewXml returns exactly the text
contents: the summary string, one entry per file with its path and
analysis strings, and the suggestion strings. -/
theorem parseReviewXml_wellformed_extraction
    (s S : String) (entries : List (String × String)) (suggs : List String)
    (h1 : jsIndexOf s "<review>" ≠ -1)
    (hp : parseStringPromise (reviewSlice s) = Except.ok (reviewTree S entries suggs)) :
    parseReviewXml s
      = { summary := JsVal.str S
          fileAnalyses := entries.map
            (fun e => { path := JsVal.str e.1, analysis := JsVal.str e.2 })
          overallSuggestions := suggs.map JsVal.str } := by
  have hf : (entries.map fileEntryVal).map extractFileEntry
      = entries.map (fun e => { path := JsVal.str e.1, analysis := JsVal.str e.2 }) := by
    rw [List.map_map]
    exact List.map_congr_left (fun e _ => extractFileEntry_fileEntryVal e)
  have hs : (suggs.map JsVal.str).map (fun s => if jsTruthy s then s else JsVal.str "")
      = suggs.map JsVal.str := by
    rw [List.map_map]
    exact List.map_congr_left (fun t _ => suggestion_map_id t)
  rw [parseReviewXml_eq_extract s (reviewTree S entries suggs) h1 hp]
  unfold reviewTree
  rw [extractAnalysis_reviewTreeF]
  simp only [hf, hs]

def c8Input : String :=
  "<review><summary>S</summary><fileAnalyses><file><path>a.ts</path><analysis>A</analysis></file></fileAnalyses><overallSuggestions><suggestion>Do X</suggestion></overallSuggestions></review>"

/-- C8 witness: end-to-end scenario D of the spec, evaluated on the
concrete markup. -/
theorem parseReviewXml_wellformed_extraction_witness :
    parseReviewXml c8Input
      = { summary := JsVal.str "S"
          fileAnalyses := [{ path := JsVal.str "a.ts", analysis := JsVal.str "A" }]
          overallSuggestions := [JsVal.str "Do X"] } := by
  have h := parseReviewXml_wellformed_extraction c8Input "S" [("a.ts", "A")] ["Do X"]
    (by decide) rfl
  simpa using h

/-- C9: for every input whose slice parses to a review tree with an
arbitrary list of per-file entries, the returned per-file list has the
same length as the list in the markup, and an entry that omits its path
element is still included, with the literal placeholder "Unknown file"
as its path. -/
theorem parseReviewXml_missing_path_placeholder
    (s S : String) (fs ss : List JsVal)
    (h1 : jsIndexOf s "<review>" ≠ -1)
    (hp : parseStringPromise (reviewSlice s) = Except.ok (reviewTreeF S fs ss)) :
    (parseReviewXml s).fileAnalyses.length = fs.length ∧
    ∀ (i : Nat) (f : JsVal), fs[i]? = some f →
      ∃ r : FileAnalysis, (parseReviewXml s).fileAnalyses[i]? = some r ∧
        (jsGet f "path" = JsVal.undef → r.path = JsVal.str "Unknown file") := by
  rw [parseReviewXml_eq_extract s (reviewTreeF S fs ss) h1 hp]
  rw [extractAnalysis_reviewTreeF]
  constructor
  · exact List.length_map fs extractFileEntry
  · intro i f hf
    refine ⟨extractFileEntry f, ?_, ?_⟩
    · rw [List.getElem?_map, hf]
      rfl
    · intro hpth
      unfold extractFileEntry
      rw [hpth]
      rfl

def c9Input : String :=
  "<review><summary>S</summary><fileAnalyses><file><analysis>A</analysis></file></fileAnalyses><overallSuggestions><suggestion>X</suggestion></overallSuggestions></review>"

def c9FileEntry : JsVal := JsVal.obj [("analysis", JsVal.arr [JsVal.str "A"])]

/-- C9 witness: a file entry without a path element is kept (list length
one) and its path is the placeholder. -/
theorem parseReviewXml_missing_path_placeholder_witness :
    (parseReviewXml c9Input).fileAnalyses.length = 1 ∧
    ∃ r : FileAnalysis, (parseReviewXml c9Input).fileAnalyses[0]? = some r ∧
      r.path = JsVal.str "Unknown file" := by
  have h := parseReviewXml_missing_path_placeholder c9Input "S" [c9FileEntry]
    [JsVal.str "X"] (by decide) rfl
  obtain ⟨hlen, hpos⟩ := h
  obtain ⟨r, hr, hpath⟩ := hpos 0 c9FileEntry rfl
  exact ⟨hlen, r, hr, hpath rfl⟩

/- The markdown body rendered from analyzeFallback. -/
def analyzeFallbackBody : String :=
  "# Pull Request Review\n\nWe were unable to analyze the code due to an internal error.\n\n\n\n## Suggestions for Improvement\n\n\n---\n*Generated by PR Review Bot*"

/-- C6: for every title, change-record list and commit-message list, when
the model call raises, analyzeCode catches the exception and returns the
whole-record fallback shape (fixed summary text, empty file-analysis list,
empty suggestions), and the finalized comment body rendered from it is the
fixed text containing "unable to analyze" with no per-file subsections
(the only "## " heading in analyzeFallbackBody is the suggestions one). -/
theorem analyzeCode_model_failure_fallback
    (title : String) (changedFiles : List FileChange)
    (commitMessages : List String) (e : JsErr) :
    analyzeCode (fun _ => Except.error e) title changedFiles commitMessages
      = analyzeFallback ∧
    analyzeFallback.fileAnalyses = [] ∧
    analyzeFallback.overallSuggestions = [] ∧
    buildFinalReviewBody analyzeFallback = Except.ok analyzeFallbackBody ∧
    hasSubstr analyzeFallbackBody "unable to analyze" = true := by
  exact ⟨rfl, rfl, rfl, rfl, rfl⟩

/-- C7: for every content-fetch behaviour and every host file list, the
Change-Set Collector returns one record per input file, in the original
file-list order (same filenames at the same indices), and a file whose
content fetch fails still yields its record, with an absent content, so
a single failure never aborts or shortens the batch. -/
theorem collectChangedFiles_length_order_isolation
    (gc : ContentFetch) (files : List HostFile) :
    (collectChangedFiles gc files).length = files.length ∧
    (collectChangedFiles gc files).map (fun c => c.filename)
      = files.map (fun f => f.filename) ∧
    ∀ (i : Nat) (f : HostFile), files[i]? = some f →
      ∃ r : FileChange, (collectChangedFiles gc files)[i]? = some r ∧
        r.filename = f.filename ∧ r.status = f.status ∧
        ∀ e, gc f.filename = Except.error e → r.content = none := by
  refine ⟨List.length_map files (mkChangeRecord gc), ?_, ?_⟩
  · rw [collectChangedFiles, List.map_map]
    rfl
  · intro i f hf
    refine ⟨mkChangeRecord gc f, ?_, rfl, rfl, ?_⟩
    · rw [collectChangedFiles, List.getElem?_map, hf]
      rfl
    · intro e he
      unfold mkChangeRecord getFileContent
      rw [he]
      rcases e with _ | msg | st
      · simp
      · simp
      · by_cases h404 : st = 404 <;> simp [h404]

def c7Fetch : ContentFetch := fun _ => Except.error JsErr.typeError

def c7Files : List HostFile := [⟨"a.ts", some "p", "modified", 1, 0⟩]

/-- C7 witness: a batch of one file whose fetch fails still yields its
record, with absent content. -/
theorem collectChangedFiles_length_order_isolation_witness :
    ∃ r : FileChange, (collectChangedFiles c7Fetch c7Files)[0]? = some r ∧
      r.filename = "a.ts" ∧ r.content = none := by
  obtain ⟨r, h1, h2, _h3, h4⟩ :=
    (collectChangedFiles_length_order_isolation c7Fetch c7Files).2.2 0
      ⟨"a.ts", some "p", "modified", 1, 0⟩ rfl
  exact ⟨r, h1, h2, h4 JsErr.typeError rfl⟩

lemma mem_contentCalls {c : HostCall} {fs : List HostFile}
    (hc : c ∈ contentCalls fs) : ∃ path, c = HostCall.getContent path := by
  simp only [contentCalls, List.mem_map] at hc
  obtain ⟨f, _, rfl⟩ := hc
  exact ⟨f.filename, rfl⟩

lemma createCount_append (l1 l2 : List HostCall) :
    createCount (l1 ++ l2) = createCount l1 + createCount l2 :=
  List.countP_append _ _ _

lemma updateCount_append (l1 l2 : List HostCall) :
    updateCount (l1 ++ l2) = updateCount l1 + updateCount l2 :=
  List.countP_append _ _ _

lemma createCount_contentCalls (fs : List HostFile) :
    createCount (contentCalls fs) = 0 := by
  rw [createCount, List.countP_eq_zero]
  intro c hc
  obtain ⟨path, rfl⟩ := mem_contentCalls hc
  simp [isCreate]

lemma updateCount_contentCalls (fs : List HostFile) :
    updateCount (contentCalls fs) = 0 := by
  rw [updateCount, List.countP_eq_zero]
  intro c hc
  obtain ⟨path, rfl⟩ := mem_contentCalls hc
  simp [isUpdate]

/- Exhaustive shape analysis of the try block: the five ways it can stop,
   with the trace each one leaves and the outcome of the block. -/
lemma tryBody_shape (o : HostOracle) (info : PRInfo) :
    (∃ e, (tryBody o info).1 = [HostCall.createComment placeholderBody] ∧
      (tryBody o info).2 = Except.error e) ∨
    (∃ e, (tryBody o info).1
        = [HostCall.createComment placeholderBody, HostCall.listFiles] ∧
      (tryBody o info).2 = Except.error e) ∨
    (∃ e fs, (tryBody o info).1
        = [HostCall.createComment placeholderBody, HostCall.listFiles]
          ++ contentCalls fs ++ [HostCall.listCommits] ∧
      (tryBody o info).2 = Except.error e) ∨
    (∃ e fs p, (tryBody o info).1
        = [HostCall.createComment placeholderBody, HostCall.listFiles]
          ++ contentCalls fs ++ [HostCall.listCommits, HostCall.generateText p] ∧
      (tryBody o info).2 = Except.error e) ∨
    (∃ cid fs p b, o.createComment = Except.ok cid ∧
      (tryBody o info).1
        = [HostCall.createComment placeholderBody, HostCall.listFiles]
          ++ contentCalls fs
          ++ [HostCall.listCommits, HostCall.generateText p]
          ++ [HostCall.updateComment cid b]) := by
  cases hc : o.createComment with
  | error e => exact Or.inl ⟨e, by simp [tryBody, hc], by simp [tryBody, hc]⟩
  | ok cid =>
    cases hf : o.listFiles with
    | error e =>
      exact Or.inr (Or.inl ⟨e, by simp [tryBody, hc, hf], by simp [tryBody, hc, hf]⟩)
    | ok files =>
      cases hm : o.listCommits with
      | error e =>
        exact Or.inr (Or.inr (Or.inl ⟨e, files,
          by simp [tryBody, hc, hf, hm], by simp [tryBody, hc, hf, hm]⟩))
      | ok commits =>
        cases hb : buildFinalReviewBody (analyzeCode o.model (jsToStr info.title)
            (collectChangedFiles o.getContent files) commits) with
        | error e =>
          refine Or.inr (Or.inr (Or.inr (Or.inl ⟨e, files,
            buildPrompt (jsToStr info.title)
              (collectChangedFiles o.getContent files) commits, ?_, ?_⟩)))
          · simp [tryBody, hc, hf, hm, hb]
          · simp [tryBody, hc, hf, hm, hb]
        | ok body =>
          cases hu : o.updateComment with
          | error e =>
            refine Or.inr (Or.inr (Or.inr (Or.inr ⟨cid, files,
              buildPrompt (jsToStr info.title)
                (collectChangedFiles o.getContent files) commits, body, rfl, ?_⟩)))
            simp [tryBody, hc, hf, hm, hb, hu]
          | ok u =>
            refine Or.inr (Or.inr (Or.inr (Or.inr ⟨cid, files,
              buildPrompt (jsToStr info.title)
                (collectChangedFiles o.getContent files) commits, body, rfl, ?_⟩)))
            simp [tryBody, hc, hf, hm, hb, hu]

lemma countP_isCreate_contentCalls (fs : List HostFile) :
    List.countP isCreate (contentCalls fs) = 0 :=
  createCount_contentCalls fs

lemma countP_isUpdate_contentCalls (fs : List HostFile) :
    List.countP isUpdate (contentCalls fs) = 0 :=
  updateCount_contentCalls fs

lemma updateComment_mem_contentCalls_iff (id : Nat) (b : String) (fs : List HostFile) :
    (HostCall.updateComment id b ∈ contentCalls fs) = False := by
  simp only [eq_iff_iff, iff_false]
  intro hx
  obtain ⟨path, hcp⟩ := mem_contentCalls hx
  exact HostCall.noConfusion hcp

/-- C3 counterexample: the claim states that every exception anywhere in
the handler sequence, including the initial field extraction, is caught
and swallowed.  The extraction at src/agent.ts lines 271-275 runs before
the try block: on a payload without a repository object the access
payload.repository.owner throws, and the error escapes the handler. -/
theorem handlePullRequestOpened_extraction_error_escapes :
    (handlePullRequestOpened oracleAllOk (JsVal.obj [])).2
      = Except.error JsErr.typeError := rfl

/-- C3 amended: once the initial extraction of owner, repo, PR number,
title and head-ref succeeds, every exception raised by the remaining
sequence (placeholder, collection, analysis, final update) is caught by
the try/catch and swallowed: the handler returns normally for every
oracle behaviour. -/
theorem handlePullRequestOpened_swallows_pipeline_errors
    (o : HostOracle) (payload : JsVal) (info : PRInfo)
    (h : extractPR payload = Except.ok info) :
    (handlePullRequestOpened o payload).2 = Except.ok () := by
  unfold handlePullRequestOpened
  rw [h]

/-- C3 witness: the amended theorem applied at a well-formed payload. -/
theorem handlePullRequestOpened_swallows_pipeline_errors_witness :
    (handlePullRequestOpened oracleAllOk goodPayload).2 = Except.ok () :=
  handlePullRequestOpened_swallows_pipeline_errors oracleAllOk goodPayload goodInfo rfl

/-- C5 counterexample: the claim states that on every handled opened event
the pipeline updates the created comment exactly once, on both the
success and the failure path.  With a file-listing failure after the
placeholder is created, the orchestrator catch fires and the trace holds
one comment creation and zero updates. -/
theorem tryBody_listFiles_failure_no_update :
    createCount (handlePullRequestOpened oracleFilesFail goodPayload).1 = 1 ∧
    updateCount (handlePullRequestOpened oracleFilesFail goodPayload).1 = 0 := by
  exact ⟨rfl, rfl⟩

/-- C5 amended: on every handled opened event, at most one comment is
created and at most one update is issued; every update targets exactly
the comment id returned by the creation call; and whenever the try block
completes without an orchestration-level exception, exactly one creation
and exactly one update occur.  When the block stops early, the placeholder
is left un-updated. -/
theorem comment_lifecycle_single_create_single_update
    (o : HostOracle) (payload : JsVal) (info : PRInfo)
    (h : extractPR payload = Except.ok info) :
    handlePullRequestOpened o payload = ((tryBody o info).1, Except.ok ()) ∧
    createCount (tryBody o info).1 ≤ 1 ∧
    updateCount (tryBody o info).1 ≤ 1 ∧
    (∀ id b, HostCall.updateComment id b ∈ (tryBody o info).1 →
      o.createComment = Except.ok id) ∧
    ((tryBody o info).2 = Except.ok () →
      createCount (tryBody o info).1 = 1 ∧ updateCount (tryBody o info).1 = 1) := by
  refine ⟨?_, ?_, ?_, ?_, ?_⟩
  · unfold handlePullRequestOpened
    rw [h]
  · rcases tryBody_shape o info with ⟨e, h1, h2⟩ | ⟨e, h1, h2⟩ | ⟨e, fs, h1, h2⟩ |
      ⟨e, fs, p, h1, h2⟩ | ⟨cid, fs, p, b, hcc, h1⟩ <;>
      rw [h1] <;>
      simp [createCount, List.countP_append, List.countP_cons,
        countP_isCreate_contentCalls, isCreate]
  · rcases tryBody_shape o info with ⟨e, h1, h2⟩ | ⟨e, h1, h2⟩ | ⟨e, fs, h1, h2⟩ |
      ⟨e, fs, p, h1, h2⟩ | ⟨cid, fs, p, b, hcc, h1⟩ <;>
      rw [h1] <;>
      simp [updateCount, List.countP_append, List.countP_cons,
        countP_isUpdate_contentCalls, isUpdate]
  · intro id b hmem
    rcases tryBody_shape o info with ⟨e, h1, h2⟩ | ⟨e, h1, h2⟩ | ⟨e, fs, h1, h2⟩ |
      ⟨e, fs, p, h1, h2⟩ | ⟨cid, fs, p, b2, hcc, h1⟩ <;>
      rw [h1] at hmem <;>
      simp [updateComment_mem_contentCalls_iff] at hmem
    obtain ⟨rfl, rfl⟩ := hmem
    exact hcc
  · intro hok
    rcases tryBody_shape o info with ⟨e, h1, h2⟩ | ⟨e, h1, h2⟩ | ⟨e, fs, h1, h2⟩ |
      ⟨e, fs, p, h1, h2⟩ | ⟨cid, fs, p, b, hcc, h1⟩
    · rw [h2] at hok
      exact Except.noConfusion hok
    · rw [h2] at hok
      exact Except.noConfusion hok
    · rw [h2] at hok
      exact Except.noConfusion hok
    · rw [h2] at hok
      exact Except.noConfusion hok
    · rw [h1]
      constructor
      · simp [createCount, List.countP_append, List.countP_cons,
          countP_isCreate_contentCalls, isCreate]
      · simp [updateCount, List.countP_append, List.countP_cons,
          countP_isUpdate_contentCalls, isUpdate]

/-- C5 witness: the amended theorem applied at a well-formed payload and an
oracle for which every call succeeds: exactly one creation and one update. -/
theorem comment_lifecycle_single_create_single_update_witness :
    createCount (tryBody oracleAllOk goodInfo).1 = 1 ∧
    updateCount (tryBody oracleAllOk goodInfo).1 = 1 := by
  have h := comment_lifecycle_single_create_single_update oracleAllOk goodPayload
    goodInfo rfl
  exact h.2.2.2.2 rfl

lemma countP_isRespond_contentCalls (fs : List HostFile) :
    List.countP isRespond (contentCalls fs) = 0 := by
  rw [List.countP_eq_zero]
  intro c hc
  obtain ⟨path, rfl⟩ := mem_contentCalls hc
  simp [isRespond]

lemma no_respond_in_tryBody (o : HostOracle) (info : PRInfo) :
    ∀ c ∈ (tryBody o info).1, isRespond c = false := by
  have hz : List.countP isRespond (tryBody o info).1 = 0 := by
    rcases tryBody_shape o info with ⟨e, h1, h2⟩ | ⟨e, h1, h2⟩ | ⟨e, fs, h1, h2⟩ |
      ⟨e, fs, p, h1, h2⟩ | ⟨cid, fs, p, b, hcc, h1⟩ <;>
      rw [h1] <;>
      simp [List.countP_append, List.countP_cons, countP_isRespond_contentCalls, isRespond]
  intro c hc
  have hne := List.countP_eq_zero.mp hz c hc
  simpa using hne

lemma no_respond_in_handle (o : HostOracle) (payload : JsVal) :
    ∀ c ∈ (handlePullRequestOpened o payload).1, isRespond c = false := by
  intro c hc
  unfold handlePullRequestOpened at hc
  cases hx : extractPR payload with
  | error e =>
    rw [hx] at hc
    exact absurd hc (List.not_mem_nil c)
  | ok info =>
    rw [hx] at hc
    exact no_respond_in_tryBody o info c hc

/-- C10: for every qualifying pull_request/opened event, the webhook
handler awaits the whole pipeline before writing its acknowledgment: the
action trace is exactly the handler trace followed by one final respond
action (status 200 when the handler returned normally), and no respond
action occurs anywhere inside the handler trace. -/
theorem webhookPost_ack_after_pipeline
    (o : HostOracle) (eventType : String) (payload : JsVal)
    (h1 : eventType = "pull_request")
    (h2 : jsGetE payload "action" = Except.ok (JsVal.str "opened")) :
    webhookPost o eventType payload
      = (handlePullRequestOpened o payload).1
        ++ [HostCall.respond (respStatus (handlePullRequestOpened o payload).2)] ∧
    (∀ c ∈ (handlePullRequestOpened o payload).1, isRespond c = false) ∧
    isRespond (HostCall.respond (respStatus (handlePullRequestOpened o payload).2))
      = true := by
  subst h1
  refine ⟨?_, no_respond_in_handle o payload, rfl⟩
  unfold webhookPost
  rw [h2]
  simp

/-- C10 witness: on a qualifying event with an all-ok oracle, the trace
is the handler trace followed by the 200 acknowledgment. -/
theorem webhookPost_ack_after_pipeline_witness :
    webhookPost oracleAllOk "pull_request" goodPayload
      = (handlePullRequestOpened oracleAllOk goodPayload).1 ++ [HostCall.respond 200] := by
  have h := webhookPost_ack_after_pipeline oracleAllOk "pull_request" goodPayload rfl rfl
  exact h.1
